import Mathlib

set_option maxHeartbeats 1000000

/-!
Shallow embedding of the lpm package-manager installation core: the typed
SQL statement builder (`src/db/src/sql-builder/mod.rs`) and the install
orchestrator (`src/lpm/core/src/install.rs`), together with proofs about
the specified behaviour of both.
-/

namespace Lpm

/-- Error values flowing through the install pipeline.  The Rust code uses
structured `LpmError` values; the embedding only needs distinguishable error
tokens, so failures injected by external-collaborator oracles carry a
numeric code. -/
inductive Err where
  | packageNotFound
  | invalidPackageName
  | ioError
  | parseFailure
  | fuelExhausted
  | stalled
  | emptyStack
  | other (code : Nat)
  deriving DecidableEq, Repr

/-- The typed SQL operation descriptions of `sql-builder/mod.rs`
(`enum Operation`).  An `Insert` column is the column name paired with the
caller-supplied positional placeholder index (`insert::Column`);
`InsertFromSelect` carries the rendered text of the nested select, whose
type lives in the crate's `select` module. -/
inductive Operation where
  | Select (columns : Option (List String)) (table : String)
  | SelectDistinct (columns : List String) (table : String)
  | Delete (table : String)
  | Insert (table : String) (columns : Option (List (String × Nat)))
  | InsertFromSelect (table : String) (sel : String)
  deriving DecidableEq, Repr

/-- Rendering of `impl Display for Operation`.  `none` marks the
`log_and_panic!` branch taken by `SelectDistinct` on an empty column set;
every other arm renders to a SQL string exactly as the `write!` calls do. -/
def Operation.toSqlString : Operation → Option String
  | .Select columns table =>
    let cols :=
      match columns with
      | some cs => if cs.isEmpty then "*" else String.intercalate ", " cs
      | none => "*"
    some ("SELECT " ++ cols ++ " FROM " ++ table)
  | .SelectDistinct columns table =>
    if columns.isEmpty then
      none
    else
      some ("SELECT DISTINCT " ++ String.intercalate ", " columns ++ " FROM " ++ table)
  | .Delete table => some ("DELETE FROM " ++ table)
  | .Insert table columns =>
    match columns with
    | some cs =>
      if cs.isEmpty then
        some ("INSERT INTO " ++ table ++ " DEFAULT VALUES")
      else
        some ("INSERT INTO " ++ table ++ " ("
          ++ String.intercalate ", " (cs.map fun c => c.1)
          ++ ") VALUES("
          ++ String.intercalate ", " (cs.map fun c => "?" ++ toString c.2)
          ++ ")")
    | none => some ("INSERT INTO " ++ table ++ " DEFAULT VALUES")
  | .InsertFromSelect table sel => some ("INSERT INTO " ++ table ++ " " ++ sel)

/-- C6: the statement builder's Insert rendering, given table `packages` and
columns `[(name, 1), (license, 2)]`, produces exactly
`INSERT INTO packages (name, license) VALUES(?1, ?2)` (echoing the
caller-supplied placeholder indices verbatim), and given no columns produces
exactly `INSERT INTO packages DEFAULT VALUES`. -/
theorem insert_rendering_c6 :
    Operation.toSqlString (.Insert "packages" (some [("name", 1), ("license", 2)]))
      = some "INSERT INTO packages (name, license) VALUES(?1, ?2)"
  ∧ Operation.toSqlString (.Insert "packages" none)
      = some "INSERT INTO packages DEFAULT VALUES" := by
  constructor <;> rfl

/-- C7: for every table name, rendering SelectDistinct with an empty column
vector takes the fatal `log_and_panic!` branch (modelled as `none`) rather
than producing any SQL string; with a non-empty column vector it produces
`SELECT DISTINCT <cols> FROM <table>`. -/
theorem select_distinct_c7 :
    (∀ table : String, Operation.toSqlString (.SelectDistinct [] table) = none)
  ∧ (∀ (table : String) (cols : List String), cols ≠ [] →
      Operation.toSqlString (.SelectDistinct cols table)
        = some ("SELECT DISTINCT " ++ String.intercalate ", " cols ++ " FROM " ++ table)) := by
  constructor
  · intro table; rfl
  · intro table cols h
    cases cols with
    | nil => exact absurd rfl h
    | cons c cs => rfl

/-- Witness for C7 at a concrete table and column list. -/
theorem select_distinct_c7_witness :
    ["name"] ≠ ([] : List String)
  ∧ Operation.toSqlString (.SelectDistinct ["name"] "packages")
      = some ("SELECT DISTINCT " ++ String.intercalate ", " ["name"] ++ " FROM " ++ "packages") :=
  ⟨by decide, select_distinct_c7.2 "packages" ["name"] (by decide)⟩

/-- The comparison operator of a version constraint (`<op>` of
`name@<op><version>`, spec §6: `=`, `>=`, `<=`, `>`, `<`). -/
inductive CmpOp where
  | eq
  | ge
  | le
  | gt
  | lt
  deriving DecidableEq, Repr

/-- The operator's textual form, as produced by
`VersionCondition::to_str_operator` when the resolver re-formats a stack
entry (`install.rs`, `get_pkg_stack`). -/
def CmpOp.toStrOperator : CmpOp → String
  | .eq => "="
  | .ge => ">="
  | .le => "<="
  | .gt => ">"
  | .lt => "<"

/-- A semantic version `major.minor.patch`, kept as the raw digit runs of
the specifier so that re-formatting reproduces the parsed text. -/
structure VersionTriple where
  major : List Char
  minor : List Char
  patch : List Char
  deriving DecidableEq, Repr

/-- The readable `major.minor.patch` character form of a version. -/
def VersionTriple.readableChars (v : VersionTriple) : List Char :=
  v.major ++ '.' :: v.minor ++ '.' :: v.patch

/-- Modelled from the spec: `PkgToQuery`, the parsed package specifier of
the `common` crate (which is not under `src/`).  Spec §3: parsed from a
string of the form `name`, `name@=1.2.3`, `name@>=1.2.3`, etc.; fields are
a non-empty name and a version constraint (comparison operator plus
semantic version); parsing fails (returns absent) on malformed input and
never partially populates itself.  A bare `name` carries no constraint. -/
structure PkgToQuery where
  name : String
  constraint : Option (CmpOp × VersionTriple)
  deriving DecidableEq, Repr

/-- Splits a character list at the first `@`, returning the part before it
and the part after it; `none` when no `@` occurs. -/
def breakAtSign : List Char → Option (List Char × List Char)
  | [] => none
  | c :: rest =>
    if c = '@' then some ([], rest)
    else (breakAtSign rest).map fun p => (c :: p.1, p.2)

/-- Splits a character list on every `.` (the groups between dots, in
order; no dot yields a single group). -/
def splitDots : List Char → List (List Char)
  | [] => [[]]
  | c :: rest =>
    if c = '.' then [] :: splitDots rest
    else
      match splitDots rest with
      | [] => [[c]]
      | g :: gs => (c :: g) :: gs

/-- A well-formed version component: a non-empty run of decimal digits. -/
def goodComponent (l : List Char) : Bool :=
  !l.isEmpty && l.all Char.isDigit

/-- Parses the leading comparison operator of a constraint, returning the
operator and the remaining characters.  The two-character operators `>=`
and `<=` are recognised before the one-character `>` and `<`. -/
def parseOp : List Char → Option (CmpOp × List Char)
  | [] => none
  | c :: rest =>
    if c = '=' then some (.eq, rest)
    else if c = '>' then
      match rest with
      | c2 :: rest2 => if c2 = '=' then some (.ge, rest2) else some (.gt, rest)
      | [] => some (.gt, rest)
    else if c = '<' then
      match rest with
      | c2 :: rest2 => if c2 = '=' then some (.le, rest2) else some (.lt, rest)
      | [] => some (.lt, rest)
    else none

/-- Parses `major.minor.patch` where each component is a non-empty digit
run; fails on any other shape. -/
def parseVersionChars (l : List Char) : Option VersionTriple :=
  match splitDots l with
  | [a, b, c] =>
    if goodComponent a && goodComponent b && goodComponent c then
      some ⟨a, b, c⟩
    else
      none
  | _ => none

/-- Modelled from the spec: `PkgToQuery::parse` of the `common` crate
(not under `src/`).  Accepts `name` and `name@<op><version>` with `<op>` in
`=`, `>=`, `<=`, `>`, `<` and a semantic version; the name must be
non-empty; anything malformed yields `none`. -/
def PkgToQuery.parse (s : String) : Option PkgToQuery :=
  match breakAtSign s.data with
  | none => if s.data.isEmpty then none else some ⟨s, none⟩
  | some (n, c) =>
    if n.isEmpty then none
    else
      match parseOp c with
      | none => none
      | some (op, rest) =>
        match parseVersionChars rest with
        | none => none
        | some v => some ⟨⟨n⟩, some (op, v)⟩

/-- Formats a specifier that carries an explicit constraint back to
`name@<op><version>` form, exactly the shape the resolver re-builds for
each stack entry in `get_pkg_stack` (`install.rs` lines 80-85). -/
def PkgToQuery.formatSpecifier (q : PkgToQuery) : String :=
  match q.constraint with
  | some (op, v) => q.name ++ "@" ++ op.toStrOperator ++ ⟨v.readableChars⟩
  | none => q.name

/-- The concrete version record carried by a resolved package reference
(`PkgIndex.version` in the `db` crate): the comparison condition and the
readable version text used when the resolver formats the entry. -/
structure VersionStruct where
  condition : CmpOp
  readable : String
  deriving DecidableEq, Repr

/-- Modelled from the spec: `PkgToQuery::version_struct` of the `common`
crate (not under `src/`) turns the parsed constraint into the version
record stored in a `PkgIndex`; a bare name carries no constraint and is
given the neutral record. -/
def PkgToQuery.versionStruct (q : PkgToQuery) : VersionStruct :=
  match q.constraint with
  | some (op, v) => ⟨op, ⟨v.readableChars⟩⟩
  | none => ⟨.eq, "0.0.0"⟩

/-- `PkgIndex`: a resolved package reference — name, owning repository
address, and concrete version (`db` crate type used by `install.rs`). -/
structure PkgIndex where
  name : String
  repository_address : String
  version : VersionStruct
  deriving DecidableEq, Repr

/-- Environment of `get_pkg_stack` (`install.rs` lines 49-120): the
configured repositories (`db::get_repositories`), the size of each
repository's backing index file (`fs::metadata`; `none` means the file is
missing and the metadata call fails), the mandatory-dependency lookup of
an index (`db::PkgIndex::get_mandatory_dependencies`, keyed by repository
name and the formatted package specifier), the root lookup
(`find_pkg_index` of `repository.rs`), and fuel bounding the unbounded
work-list loop of the Rust code. -/
structure ResolveEnv where
  repositories : List (String × String)
  fileSize : String → Option Nat
  deps : String → String → List String
  findRoot : PkgToQuery → Except Err PkgIndex
  fuel : Nat

/-- The specifier text the resolver re-builds for a stack entry:
`format!("{}@{}{}", pkg.name, condition.to_str_operator(), readable)`. -/
def formatIndexEntry (p : PkgIndex) : String :=
  p.name ++ "@" ++ p.version.condition.toStrOperator ++ p.version.readable

/-- Parses every dependency specifier returned by an index and binds it to
the repository address, as the `map` over
`get_mandatory_dependencies` does; a single malformed specifier is fatal
(`some_or_error`), modelled as `none`. -/
def parseDeps (addr : String) : List String → Option (List PkgIndex)
  | [] => some []
  | s :: rest =>
    match PkgToQuery.parse s with
    | none => none
    | some q =>
      (parseDeps addr rest).map fun l =>
        { name := q.name, repository_address := addr, version := q.versionStruct } :: l

/-- The inner work-list loop of `get_pkg_stack` over one repository index:
starting at position `i`, each stack entry in turn is re-formatted,
re-parsed, its mandatory dependencies are queried and appended to the end
of the stack, until the index reaches the stack's length.  The Rust loop is
unbounded (it can run forever on cyclic dependencies), so the embedding
spends one unit of fuel per iteration and reports exhaustion. -/
def expand (env : ResolveEnv) (repoName addr : String) :
    Nat → List PkgIndex → Nat → Except Err (List PkgIndex)
  | 0, stack, i => if stack.length ≤ i then .ok stack else .error .fuelExhausted
  | fuel + 1, stack, i =>
    if h : i < stack.length then
      let formatted := formatIndexEntry (stack.get ⟨i, h⟩)
      match PkgToQuery.parse formatted with
      | none => .error .parseFailure
      | some _ =>
        match parseDeps addr (env.deps repoName formatted) with
        | none => .error .parseFailure
        | some newPkgs => expand env repoName addr fuel (stack ++ newPkgs) (i + 1)
    else .ok stack

/-- The outer loop of `get_pkg_stack` over every configured repository
(`install.rs` lines 62-113): a missing backing file makes `fs::metadata`
fail and the error propagates; a zero-length file means the index is
uninitialized and the repository is skipped with a warning; otherwise the
work-list expansion runs against that index. -/
def processRepos (env : ResolveEnv) :
    List (String × String) → List PkgIndex → Except Err (List PkgIndex)
  | [], stack => .ok stack
  | (name, addr) :: rest, stack =>
    match env.fileSize name with
    | none => .error .ioError
    | some len =>
      if len = 0 then
        processRepos env rest stack
      else
        match expand env name addr env.fuel stack 0 with
        | .error e => .error e
        | .ok stack2 => processRepos env rest stack2

/-- Tail of the `dedup_by_key` walk: `last` is the most recently kept
entry; a neighbour with the same name is dropped, a different name is kept
and becomes the comparison point. -/
def dedupFrom (last : PkgIndex) : List PkgIndex → List PkgIndex
  | [] => []
  | b :: rest =>
    if b.name = last.name then dedupFrom last rest
    else b :: dedupFrom b rest

/-- `Vec::dedup_by_key(|t| t.name.clone())`: removes all but the first of
*consecutive* stack entries sharing a name (this is Rust's documented
`dedup_by_key` behaviour — only neighbouring duplicates are collapsed). -/
def dedupByName : List PkgIndex → List PkgIndex
  | [] => []
  | a :: rest => a :: dedupFrom a rest

/-- `get_pkg_stack` (`install.rs` lines 49-120): fails when no repository
is configured, locates the root, expands the work list against every
initialized repository, then applies `dedup_by_key` on names. -/
def get_pkg_stack (env : ResolveEnv) (pkg_to_query : PkgToQuery) :
    Except Err (List PkgIndex) :=
  if env.repositories.isEmpty then .error .packageNotFound
  else
    match env.findRoot pkg_to_query with
    | .error e => .error e
    | .ok index =>
      match processRepos env env.repositories [index] with
      | .error e => .error e
      | .ok stack => .ok (dedupByName stack)

/-- A two-repository configuration on which the resolver's stack contains
the same package name twice, non-adjacently: repository `r1` declares
`root -> [b, c]`, repository `r2` declares `root -> [b]`, and nothing
else has dependencies. -/
def envC1 : ResolveEnv where
  repositories := [("r1", "a1"), ("r2", "a2")]
  fileSize := fun _ => some 1
  deps := fun repo pkg =>
    if repo = "r1" then
      if pkg = "root@=1.0.0" then ["b@=1.0.0", "c@=1.0.0"] else []
    else
      if pkg = "root@=1.0.0" then ["b@=1.0.0"] else []
  findRoot := fun _ => .ok ⟨"root", "a1", ⟨.eq, "1.0.0"⟩⟩
  fuel := 8

/-- C1: evaluated at the two-repository configuration `envC1`, the stack
returned by `get_pkg_stack` is `[root, b, c, b]` — the package name `b`,
discovered once via `r1` and once via `r2`, appears twice because
`dedup_by_key` only collapses *adjacent* equal names.  This contradicts
the claim (and the code's own comment at `install.rs` line 115) that the
returned list holds at most one entry per package name with every later
occurrence dropped. -/
theorem dedup_bug_c1 :
    get_pkg_stack envC1 ⟨"root", none⟩
      = .ok [⟨"root", "a1", ⟨.eq, "1.0.0"⟩⟩, ⟨"b", "a1", ⟨.eq, "1.0.0"⟩⟩,
             ⟨"c", "a1", ⟨.eq, "1.0.0"⟩⟩, ⟨"b", "a2", ⟨.eq, "1.0.0"⟩⟩]
  ∧ ¬ (["root", "b", "c", "b"] : List String).Nodup :=
  ⟨rfl, by decide⟩

/-- C8: during dependency-stack resolution, a configured repository index
whose backing file exists with zero length contributes no dependency
information and is skipped with only a warning — the repository pass
behaves exactly as if that repository were not in the list, so resolution
continues — whereas a configured index whose backing file is missing makes
the resolution fail with an error. -/
theorem uninitialized_vs_missing_c8 (env : ResolveEnv) (name addr : String)
    (repos₁ repos₂ : List (String × String)) (stack : List PkgIndex) :
    (env.fileSize name = some 0 →
      processRepos env (repos₁ ++ (name, addr) :: repos₂) stack
        = processRepos env (repos₁ ++ repos₂) stack)
  ∧ (env.fileSize name = none →
      ∃ e, processRepos env (repos₁ ++ (name, addr) :: repos₂) stack = .error e) := by
  induction repos₁ generalizing stack with
  | nil =>
    constructor
    · intro h
      simp [processRepos, h]
    · intro h
      exact ⟨.ioError, by simp [processRepos, h]⟩
  | cons p rest ih =>
    obtain ⟨pn, pa⟩ := p
    constructor
    · intro h
      cases hf : env.fileSize pn with
      | none => simp [processRepos, hf]
      | some len =>
        by_cases hl : len = 0
        · subst hl
          simpa [processRepos, hf] using (ih stack).1 h
        · cases hx : expand env pn pa env.fuel stack 0 with
          | error e => simp [processRepos, hf, hl, hx]
          | ok stack2 =>
            simpa [processRepos, hf, hl, hx] using (ih stack2).1 h
    · intro h
      cases hf : env.fileSize pn with
      | none => exact ⟨.ioError, by simp [processRepos, hf]⟩
      | some len =>
        by_cases hl : len = 0
        · subst hl
          obtain ⟨e, he⟩ := (ih stack).2 h
          exact ⟨e, by simpa [processRepos, hf] using he⟩
        · cases hx : expand env pn pa env.fuel stack 0 with
          | error e => exact ⟨e, by simp [processRepos, hf, hl, hx]⟩
          | ok stack2 =>
            obtain ⟨e, he⟩ := (ih stack2).2 h
            exact ⟨e, by simpa [processRepos, hf, hl, hx] using he⟩

/-- A configuration whose only zero-length backing file is `z` and whose
other index files are missing. -/
def envC8 : ResolveEnv where
  repositories := [("z", "a")]
  fileSize := fun n => if n = "z" then some 0 else none
  deps := fun _ _ => []
  findRoot := fun _ => .error .packageNotFound
  fuel := 1

/-- Witness for C8: concretely, the zero-length index `z` is skipped (the
pass equals the pass without it) and the missing index `m` makes the pass
fail. -/
theorem uninitialized_vs_missing_c8_witness :
    (processRepos envC8 ([] ++ ("z", "a") :: []) [] = processRepos envC8 ([] ++ []) [])
  ∧ ∃ e, processRepos envC8 ([] ++ ("m", "a") :: []) [] = .error e :=
  ⟨(uninitialized_vs_missing_c8 envC8 "z" "a" [] [] []).1 rfl,
   (uninitialized_vs_missing_c8 envC8 "m" "a" [] [] []).2 rfl⟩

/-- Terminal transaction operations (`Transaction::Commit` /
`Transaction::Rollback` issued through `transaction_op`). -/
inductive TxOp where
  | commit
  | rollback
  deriving DecidableEq, Repr

/-- Lifecycle script phases (`ScriptPhase` of the `common` crate). -/
inductive Phase where
  | preInstall
  | postInstall
  deriving DecidableEq, Repr

/-- Observable operations attempted by the install pipeline, recorded in
order of attempt.  `insertRow` carries the source-package id bound into the
catalog insert; `tx` records a transaction operation sent to the catalog
connection. -/
inductive Effect where
  | resolveStack
  | download
  | extract
  | validate
  | insertRow (src : Option Int)
  | script (phase : Phase)
  | copyScripts
  | copyPrograms
  | cleanup
  | tx (op : TxOp)
  deriving DecidableEq, Repr

/-- Outcome oracles for one run of the install state machine
(`start_install_task`): what each external collaborator — catalog insert,
script runner, file copies, cleanup, and the two transaction operations —
would return if invoked. -/
structure InstallEnv where
  insertResult : Except Err Int
  preScriptResult : Except Err Unit
  copyScriptsResult : Except Err Unit
  copyProgramsResult : Except Err Unit
  cleanupResult : Except Err Unit
  postScriptResult : Except Err Unit
  commitResult : Except Err Unit
  rollbackResult : Except Err Unit

/-- The failure epilogue `transaction_op(core_db, Transaction::Rollback)?;
return Err(err)`: the rollback is attempted; if the rollback itself fails,
the `?` propagates the rollback's error (the original `err` is dropped),
otherwise `err` is returned. -/
def rollbackThen (env : InstallEnv) (e : Err) (tr : List Effect) :
    Except Err Int × List Effect :=
  match env.rollbackResult with
  | .error re => (.error re, tr ++ [.tx .rollback])
  | .ok _ => (.error e, tr ++ [.tx .rollback])

/-- `start_install_task` (`install.rs` lines 132-170): catalog insert,
pre-install script, script copy, program copy, cleanup, post-install
script, then commit; every stage failure after the insert attempts a
rollback, and a failing commit also attempts a rollback. -/
def start_install_task (env : InstallEnv) (src_pkg_id : Option Int) :
    Except Err Int × List Effect :=
  match env.insertResult with
  | .error e => (.error e, [.insertRow src_pkg_id])
  | .ok pkg_id =>
    match env.preScriptResult with
    | .error e => rollbackThen env e [.insertRow src_pkg_id, .script .preInstall]
    | .ok _ =>
      match env.copyScriptsResult with
      | .error e =>
        rollbackThen env e [.insertRow src_pkg_id, .script .preInstall, .copyScripts]
      | .ok _ =>
        match env.copyProgramsResult with
        | .error e =>
          rollbackThen env e
            [.insertRow src_pkg_id, .script .preInstall, .copyScripts, .copyPrograms]
        | .ok _ =>
          match env.cleanupResult with
          | .error e =>
            rollbackThen env e
              [.insertRow src_pkg_id, .script .preInstall, .copyScripts, .copyPrograms,
               .cleanup]
          | .ok _ =>
            match env.postScriptResult with
            | .error e =>
              rollbackThen env e
                [.insertRow src_pkg_id, .script .preInstall, .copyScripts, .copyPrograms,
                 .cleanup, .script .postInstall]
            | .ok _ =>
              match env.commitResult with
              | .error e =>
                rollbackThen env e
                  [.insertRow src_pkg_id, .script .preInstall, .copyScripts, .copyPrograms,
                   .cleanup, .script .postInstall, .tx .commit]
              | .ok _ =>
                (.ok pkg_id,
                 [.insertRow src_pkg_id, .script .preInstall, .copyScripts, .copyPrograms,
                  .cleanup, .script .postInstall, .tx .commit])

/-- The first stage failure of a run, over the stages that follow the
catalog insert (pre-install script, script copy, program copy, cleanup,
post-install script, commit). -/
def firstStageFailure (env : InstallEnv) : Option Err :=
  match env.preScriptResult with
  | .error e => some e
  | .ok _ =>
    match env.copyScriptsResult with
    | .error e => some e
    | .ok _ =>
      match env.copyProgramsResult with
      | .error e => some e
      | .ok _ =>
        match env.cleanupResult with
        | .error e => some e
        | .ok _ =>
          match env.postScriptResult with
          | .error e => some e
          | .ok _ =>
            match env.commitResult with
            | .error e => some e
            | .ok _ => none

/-- The first stage failure strictly before the commit operation. -/
def preCommitFailure (env : InstallEnv) : Option Err :=
  match env.preScriptResult with
  | .error e => some e
  | .ok _ =>
    match env.copyScriptsResult with
    | .error e => some e
    | .ok _ =>
      match env.copyProgramsResult with
      | .error e => some e
      | .ok _ =>
        match env.cleanupResult with
        | .error e => some e
        | .ok _ =>
          match env.postScriptResult with
          | .error e => some e
          | .ok _ => none

/-- The terminal transaction operations issued during a run, in order. -/
def terminalOps (tr : List Effect) : List TxOp :=
  tr.filterMap fun e =>
    match e with
    | .tx t => some t
    | _ => none

/-- A run whose pre-install script fails with error 1 and whose rollback
fails with error 2; every other collaborator succeeds. -/
def envC2 : InstallEnv where
  insertResult := .ok 7
  preScriptResult := .error (.other 1)
  copyScriptsResult := .ok ()
  copyProgramsResult := .ok ()
  cleanupResult := .ok ()
  postScriptResult := .ok ()
  commitResult := .ok ()
  rollbackResult := .error (.other 2)

/-- C2 counterexample: with the pre-install script failing with error 1
and the rollback failing with error 2, `start_install_task` returns the
rollback's error 2 — the `?` on the rollback call propagates it and the
original stage error 1 is dropped, not chained and not returned. -/
theorem rollback_error_c2_counterexample :
    (start_install_task envC2 none).1 = .error (.other 2)
  ∧ Err.other 2 ≠ Err.other 1 :=
  ⟨rfl, by decide⟩

/-- C2 amended: when any stage after the catalog insert fails, a rollback
is attempted; if the rollback succeeds, the original stage error is
returned, but if the rollback itself also fails, the rollback's error is
returned instead and the original stage error is dropped. -/
theorem rollback_error_c2_amended (env : InstallEnv) (src : Option Int)
    (id : Int) (e : Err)
    (hins : env.insertResult = .ok id) (hf : firstStageFailure env = some e) :
    (env.rollbackResult = .ok () → (start_install_task env src).1 = .error e)
  ∧ (∀ re, env.rollbackResult = .error re →
      (start_install_task env src).1 = .error re) := by
  obtain ⟨ir, pr, csr, cpr, clr, psr, cor, rbr⟩ := env
  cases ir <;> cases pr <;> cases csr <;> cases cpr <;> cases clr <;>
    cases psr <;> cases cor <;> cases rbr <;>
    simp_all [start_install_task, firstStageFailure, rollbackThen]

/-- A run whose pre-install script fails with error 3 and whose rollback
succeeds. -/
def envC2w : InstallEnv where
  insertResult := .ok 5
  preScriptResult := .error (.other 3)
  copyScriptsResult := .ok ()
  copyProgramsResult := .ok ()
  cleanupResult := .ok ()
  postScriptResult := .ok ()
  commitResult := .ok ()
  rollbackResult := .ok ()

/-- Witness for the amended C2 at a concrete run. -/
theorem rollback_error_c2_amended_witness :
    (start_install_task envC2w none).1 = .error (.other 3) :=
  (rollback_error_c2_amended envC2w none 5 (.other 3) rfl rfl).1 rfl

/-- A run in which every stage succeeds but the commit fails; the rollback
succeeds. -/
def envC3 : InstallEnv where
  insertResult := .ok 9
  preScriptResult := .ok ()
  copyScriptsResult := .ok ()
  copyProgramsResult := .ok ()
  cleanupResult := .ok ()
  postScriptResult := .ok ()
  commitResult := .error (.other 4)
  rollbackResult := .ok ()

/-- C3 counterexample: when every stage succeeds but the commit fails,
the run issues *two* terminal transaction operations — the failed Commit
followed by the Rollback — so the claim that exactly one terminal
operation is issued per invocation is false. -/
theorem terminal_ops_c3_counterexample :
    terminalOps (start_install_task envC3 none).2 = [.commit, .rollback]
  ∧ [TxOp.commit, TxOp.rollback].length ≠ 1 :=
  ⟨rfl, by decide⟩

/-- C3 amended: the terminal transaction operations issued by one
invocation of `start_install_task` are exactly determined — when the
catalog insert fails, none is issued; when the insert succeeds, a stage
failure before the commit issues exactly a single Rollback, full success
issues exactly a single Commit, and a failing Commit is followed by a
Rollback, so that invocation issues exactly those two operations.  In
particular a Commit is issued only when no stage before it failed, and a
run past the insert never ends with no terminal operation issued. -/
theorem terminal_ops_c3_amended (env : InstallEnv) (src : Option Int) :
    (∀ e, env.insertResult = .error e →
      terminalOps (start_install_task env src).2 = [])
  ∧ (∀ id, env.insertResult = .ok id →
      (∀ e, preCommitFailure env = some e →
        terminalOps (start_install_task env src).2 = [.rollback])
    ∧ (preCommitFailure env = none → env.commitResult = .ok () →
        terminalOps (start_install_task env src).2 = [.commit])
    ∧ (∀ e, preCommitFailure env = none → env.commitResult = .error e →
        terminalOps (start_install_task env src).2 = [.commit, .rollback])) := by
  obtain ⟨ir, pr, csr, cpr, clr, psr, cor, rbr⟩ := env
  cases ir <;> cases pr <;> cases csr <;> cases cpr <;> cases clr <;>
    cases psr <;> cases cor <;> cases rbr <;>
    simp_all [start_install_task, preCommitFailure, rollbackThen, terminalOps]

/-- A fully successful run. -/
def envC3w : InstallEnv where
  insertResult := .ok 9
  preScriptResult := .ok ()
  copyScriptsResult := .ok ()
  copyProgramsResult := .ok ()
  cleanupResult := .ok ()
  postScriptResult := .ok ()
  commitResult := .ok ()
  rollbackResult := .ok ()

/-- Witness for the amended C3 at a concrete fully successful run: a
single Commit is issued. -/
theorem terminal_ops_c3_amended_witness :
    terminalOps (start_install_task envC3w none).2 = [.commit] :=
  ((terminal_ops_c3_amended envC3w none).2 9 rfl).2.1 rfl rfl

/-- Outcome oracles for one worker of the fan-out: its own catalog
connection (`open_core_db_connection`), the artifact download, the archive
extraction (`start_extract_task`), the validation (`start_validate_task`),
and the state-machine oracles. -/
structure WorkerEnv where
  openDbResult : Except Err Unit
  downloadResult : Except Err Unit
  extractResult : Except Err Unit
  validateResult : Except Err Unit
  task : InstallEnv

/-- `pre_install_task` (`install.rs` lines 122-130): extract, then
validate; either failure propagates before anything else runs. -/
def pre_install_task (w : WorkerEnv) : Except Err Unit × List Effect :=
  match w.extractResult with
  | .error e => (.error e, [.extract])
  | .ok _ =>
    match w.validateResult with
    | .error e => (.error e, [.extract, .validate])
    | .ok _ => (.ok (), [.extract, .validate])

/-- `install_from_lod_file` (`install.rs` lines 285-296): the direct
local-file path — `pre_install_task` then `start_install_task`. -/
def install_from_lod_file (w : WorkerEnv) (src : Option Int) :
    Except Err Unit × List Effect :=
  match pre_install_task w with
  | (.error e, tr) => (.error e, tr)
  | (.ok _, tr) =>
    match start_install_task w.task src with
    | (.error e, tr2) => (.error e, tr ++ tr2)
    | (.ok _, tr2) => (.ok (), tr ++ tr2)

/-- Catalog mutations (row insert, transaction operation) and filesystem
install mutations (program or script copy). -/
def isInstallMutation : Effect → Bool
  | .insertRow _ => true
  | .tx _ => true
  | .copyScripts => true
  | .copyPrograms => true
  | _ => false

/-- C5: when validation fails, `pre_install_task` returns the validation
error before the transactional state machine is entered — the run of
`install_from_lod_file` surfaces exactly that error and its trace contains
no catalog mutation (no row insert, no transaction operation) and no
program or script copy. -/
theorem validation_aborts_c5 (w : WorkerEnv) (src : Option Int) (e : Err)
    (hex : w.extractResult = .ok ()) (hv : w.validateResult = .error e) :
    (install_from_lod_file w src).1 = .error e
  ∧ ∀ eff ∈ (install_from_lod_file w src).2, isInstallMutation eff = false := by
  obtain ⟨od, dl, ex, vl, task⟩ := w
  simp_all [install_from_lod_file, pre_install_task, isInstallMutation]

/-- A worker whose validation fails with error 6. -/
def envC5 : WorkerEnv where
  openDbResult := .ok ()
  downloadResult := .ok ()
  extractResult := .ok ()
  validateResult := .error (.other 6)
  task := envC3w

/-- Witness for C5 at a concrete worker. -/
theorem validation_aborts_c5_witness :
    (install_from_lod_file envC5 none).1 = .error (.other 6)
  ∧ ∀ eff ∈ (install_from_lod_file envC5 none).2, isInstallMutation eff = false :=
  validation_aborts_c5 envC5 none (.other 6) rfl rfl

/-- Environment of the orchestrator `install_from_repository`: the set of
already-installed package names (`is_package_exists` against the catalog),
the resolver environment, and per-package worker oracles keyed by package
name. -/
structure OrchEnv where
  catalog : List String
  resolve : ResolveEnv
  worker : String → WorkerEnv

/-- Modelled from the spec: `PkgIndex::pkg_filename` lives in the `db`
crate (not under `src/`); it is the canonical staged filename of a
resolved package, used by the orchestrator only to identify the root entry
by comparison with the first stack entry's filename. -/
def pkgFilename (p : PkgIndex) : String :=
  p.name ++ "@" ++ p.version.readable ++ ".lod"

/-- The closure spawned per stack entry (`install.rs` lines 252-273): open
an own catalog connection, download, run `pre_install_task`, then run
`start_install_task` with the supplied source-package id. -/
def runWorker (w : WorkerEnv) (src : Option Int) : Except Err Int × List Effect :=
  match w.openDbResult with
  | .error e => (.error e, [])
  | .ok _ =>
    match w.downloadResult with
    | .error e => (.error e, [.download])
    | .ok _ =>
      let pre := pre_install_task w
      match pre.1 with
      | .error e => (.error e, .download :: pre.2)
      | .ok _ =>
        let st := start_install_task w.task src
        (st.1, .download :: pre.2 ++ st.2)

/-- Sequentialisation of the fan-out and of the publish/observe protocol on
the shared root identity: the entry whose filename matches the root
filename runs with the current shared value and publishes its assigned row
id; every other entry must observe a published value (`none` would make it
busy-wait forever, `Err.stalled`) and runs with it.  A root failure
surfaces immediately (dependants never finish); a dependant failure
surfaces after the remaining workers ran, matching the join sweep. -/
def runItems (env : OrchEnv) (rootFile : String) :
    List PkgIndex → Option Int → Except Err Unit × List Effect
  | [], _ => (.ok (), [])
  | item :: rest, shared =>
    if pkgFilename item = rootFile then
      let r := runWorker (env.worker item.name) shared
      match r.1 with
      | .error e => (.error e, r.2)
      | .ok id =>
        let next := runItems env rootFile rest (some id)
        (next.1, r.2 ++ next.2)
    else
      match shared with
      | none => (.error .stalled, [])
      | some v =>
        let r := runWorker (env.worker item.name) (some v)
        let next := runItems env rootFile rest shared
        match r.1 with
        | .error e => (.error e, r.2 ++ next.2)
        | .ok _ => (next.1, r.2 ++ next.2)

/-- `install_from_repository` (`install.rs` lines 218-283): parse the
requested specifier, short-circuit successfully when the name is already
in the catalog, resolve the dependency stack, then fan the workers out
with the shared root identity starting unpublished.  The `src_pkg_id`
argument mirrors the Rust `_src_pkg_id` parameter, which the body never
reads. -/
def install_from_repository (env : OrchEnv) (pkg_name : String)
    (_src_pkg_id : Option Int) : Except Err Unit × List Effect :=
  match PkgToQuery.parse pkg_name with
  | none => (.error .invalidPackageName, [])
  | some q =>
    if q.name ∈ env.catalog then (.ok (), [])
    else
      match get_pkg_stack env.resolve q with
      | .error e => (.error e, [.resolveStack])
      | .ok [] => (.error .emptyStack, [.resolveStack])
      | .ok (root :: rest) =>
        let ri := runItems env (pkgFilename root) (root :: rest) none
        (ri.1, .resolveStack :: ri.2)

/-- C4: for every package name already present in the catalog,
`install_from_repository` returns success having performed no resolution,
download, or install step — the trace is empty, so the catalog is
unchanged. -/
theorem already_installed_c4 (env : OrchEnv) (pkg_name : String)
    (q : PkgToQuery) (s : Option Int)
    (hp : PkgToQuery.parse pkg_name = some q) (hin : q.name ∈ env.catalog) :
    install_from_repository env pkg_name s = (.ok (), []) := by
  simp [install_from_repository, hp, hin]

/-- An orchestrator whose catalog already holds `foo`. -/
def envC4 : OrchEnv where
  catalog := ["foo"]
  resolve := envC8
  worker := fun _ => envC5

/-- Witness for C4: installing `foo` over a catalog that has `foo` is a
successful no-op. -/
theorem already_installed_c4_witness :
    install_from_repository envC4 "foo" none = (.ok (), []) :=
  already_installed_c4 envC4 "foo" ⟨"foo", none⟩ none rfl (by decide)

/-- The source-package id carried by the first catalog insert of a trace,
when the trace contains an insert at all. -/
def firstInsertSrc : List Effect → Option (Option Int)
  | [] => none
  | e :: rest =>
    match e with
    | .insertRow s => some s
    | _ => firstInsertSrc rest

theorem firstInsertSrc_append (a b : List Effect) :
    firstInsertSrc (a ++ b) =
      match firstInsertSrc a with
      | some s => some s
      | none => firstInsertSrc b := by
  induction a with
  | nil => simp [firstInsertSrc]
  | cons e rest ih => cases e <;> simp [firstInsertSrc, ih]

theorem firstInsertSrc_start (env : InstallEnv) (src : Option Int) :
    firstInsertSrc (start_install_task env src).2 = some src := by
  obtain ⟨ir, pr, csr, cpr, clr, psr, cor, rbr⟩ := env
  cases ir <;> cases pr <;> cases csr <;> cases cpr <;> cases clr <;>
    cases psr <;> cases cor <;> cases rbr <;>
    simp [start_install_task, rollbackThen, firstInsertSrc]

theorem firstInsertSrc_runWorker (w : WorkerEnv) (src : Option Int) :
    (firstInsertSrc (runWorker w src).2 = none
      ∨ firstInsertSrc (runWorker w src).2 = some src)
  ∧ (∀ id, (runWorker w src).1 = .ok id →
      firstInsertSrc (runWorker w src).2 = some src) := by
  obtain ⟨od, dl, ex, vl, task⟩ := w
  cases od <;> cases dl <;> cases ex <;> cases vl <;>
    simp [runWorker, pre_install_task, firstInsertSrc, firstInsertSrc_start]

theorem runItems_root_first (env : OrchEnv) (root : PkgIndex)
    (rest : List PkgIndex) :
    firstInsertSrc (runItems env (pkgFilename root) (root :: rest) none).2 = none
  ∨ firstInsertSrc (runItems env (pkgFilename root) (root :: rest) none).2
      = some none := by
  have hw := firstInsertSrc_runWorker (env.worker root.name) none
  cases hr : (runWorker (env.worker root.name) none).1 with
  | error e =>
    rcases hw.1 with h | h
    · left; simp [runItems, hr, h]
    · right; simp [runItems, hr, h]
  | ok id =>
    have h2 : firstInsertSrc (runWorker (env.worker root.name) none).2 = some none :=
      hw.2 id hr
    right
    simp [runItems, hr, firstInsertSrc_append, h2]

/-- C10: the `src_pkg_id` argument of `install_from_repository` has no
effect on its behaviour — two calls differing only in that argument return
the same result and trace — and the root package's own catalog row is
always inserted with source-package id `none` (the first insert of any
trace, which is the root worker's, never carries a `some` id). -/
theorem src_pkg_id_unused_c10 :
    (∀ (env : OrchEnv) (pkg_name : String) (a b : Option Int),
      install_from_repository env pkg_name a
        = install_from_repository env pkg_name b)
  ∧ (∀ (env : OrchEnv) (pkg_name : String) (s : Option Int),
      firstInsertSrc (install_from_repository env pkg_name s).2 = none
    ∨ firstInsertSrc (install_from_repository env pkg_name s).2 = some none) := by
  constructor
  · intro env pkg_name a b
    rfl
  · intro env pkg_name s
    cases hp : PkgToQuery.parse pkg_name with
    | none => left; simp [install_from_repository, hp, firstInsertSrc]
    | some q =>
      by_cases hin : q.name ∈ env.catalog
      · left; simp [install_from_repository, hp, hin, firstInsertSrc]
      · cases hs : get_pkg_stack env.resolve q with
        | error e =>
          left; simp [install_from_repository, hp, hin, hs, firstInsertSrc]
        | ok stack =>
          cases stack with
          | nil =>
            left; simp [install_from_repository, hp, hin, hs, firstInsertSrc]
          | cons root rest =>
            rcases runItems_root_first env root rest with h | h
            · left; simp [install_from_repository, hp, hin, hs, firstInsertSrc, h]
            · right; simp [install_from_repository, hp, hin, hs, firstInsertSrc, h]

/-- The operator's character form (the `.data` of `toStrOperator`). -/
def CmpOp.opChars : CmpOp → List Char
  | .eq => ['=']
  | .ge => ['>', '=']
  | .le => ['<', '=']
  | .gt => ['>']
  | .lt => ['<']

theorem opChars_data (op : CmpOp) : op.toStrOperator.data = op.opChars := by
  cases op <;> rfl

theorem breakAtSign_sound (l : List Char) (p : List Char × List Char)
    (h : breakAtSign l = some p) : '@' ∉ p.1 ∧ l = p.1 ++ '@' :: p.2 := by
  induction l generalizing p with
  | nil => simp [breakAtSign] at h
  | cons c rest ih =>
    by_cases hc : c = '@'
    · subst hc
      simp [breakAtSign] at h
      rw [← h]
      simp
    · simp only [breakAtSign, if_neg hc, Option.map_eq_some'] at h
      obtain ⟨p', hp', rfl⟩ := h
      obtain ⟨h1, h2⟩ := ih p' hp'
      refine ⟨?_, by simp [h2]⟩
      intro hm
      rcases List.mem_cons.mp hm with h | h
      · exact hc h.symm
      · exact h1 h

theorem breakAtSign_build (a b : List Char) (h : '@' ∉ a) :
    breakAtSign (a ++ '@' :: b) = some (a, b) := by
  induction a with
  | nil => simp [breakAtSign]
  | cons c a' ih =>
    have hc : ¬ c = '@' := fun hh => h (by simp [hh])
    have h' : '@' ∉ a' := fun hm => h (List.mem_cons_of_mem _ hm)
    simp [breakAtSign, hc, ih h']

theorem splitDots_no_dot (l : List Char) (h : '.' ∉ l) : splitDots l = [l] := by
  induction l with
  | nil => simp [splitDots]
  | cons c r ih =>
    have hc : ¬ c = '.' := fun hh => h (by simp [hh])
    have h' : '.' ∉ r := fun hm => h (List.mem_cons_of_mem _ hm)
    simp [splitDots, hc, ih h']

theorem splitDots_build (a r : List Char) (h : '.' ∉ a) :
    splitDots (a ++ '.' :: r) = a :: splitDots r := by
  induction a with
  | nil => simp [splitDots]
  | cons c a' ih =>
    have hc : ¬ c = '.' := fun hh => h (by simp [hh])
    have h' : '.' ∉ a' := fun hm => h (List.mem_cons_of_mem _ hm)
    simp [splitDots, hc, ih h']

theorem goodComponent_no_dot (l : List Char) (h : goodComponent l = true) :
    '.' ∉ l := by
  intro hm
  unfold goodComponent at h
  rw [Bool.and_eq_true] at h
  have h3 := List.all_eq_true.mp h.2 '.' hm
  exact absurd h3 (by decide)

theorem goodComponent_shape (l : List Char) (h : goodComponent l = true) :
    ∃ d l', l = d :: l' ∧ ¬ d = '=' := by
  cases l with
  | nil => simp [goodComponent] at h
  | cons d l' =>
    refine ⟨d, l', rfl, fun hd => ?_⟩
    unfold goodComponent at h
    rw [Bool.and_eq_true] at h
    have h3 := List.all_eq_true.mp h.2 d (by simp)
    rw [hd] at h3
    exact absurd h3 (by decide)

theorem parseOp_build (op : CmpOp) (d : Char) (rest : List Char)
    (hd : ¬ d = '=') :
    parseOp (op.opChars ++ d :: rest) = some (op, d :: rest) := by
  cases op <;>
    simp [CmpOp.opChars, parseOp, hd,
      show ¬ ('>' : Char) = '=' by decide, show ¬ ('<' : Char) = '=' by decide]

theorem parseVersionChars_good (rest : List Char) (v : VersionTriple)
    (h : parseVersionChars rest = some v) :
    goodComponent v.major = true ∧ goodComponent v.minor = true
  ∧ goodComponent v.patch = true := by
  unfold parseVersionChars at h
  split at h
  case _ a b c =>
    split at h
    case isTrue hg =>
      simp only [Option.some.injEq] at h
      rw [← h]
      simpa [Bool.and_eq_true, and_assoc] using hg
    case isFalse => simp at h
  case _ => simp at h

theorem parseVersionChars_readable (v : VersionTriple)
    (ga : goodComponent v.major = true) (gb : goodComponent v.minor = true)
    (gc : goodComponent v.patch = true) :
    parseVersionChars v.readableChars = some v := by
  unfold parseVersionChars VersionTriple.readableChars
  simp only [List.append_assoc, List.cons_append]
  rw [splitDots_build _ _ (goodComponent_no_dot _ ga),
      splitDots_build _ _ (goodComponent_no_dot _ gb),
      splitDots_no_dot _ (goodComponent_no_dot _ gc)]
  simp [ga, gb, gc]

/-- C9: for every valid specifier string that parses with an explicit
constraint `name@<op><version>` (`<op>` among `=`, `>=`, `<=`, `>`, `<`),
re-formatting the parsed specifier back to `name@<op><version>` — the
shape the resolver re-builds for each stack entry before re-parsing it —
parses to exactly the same specifier: same name, same operator, same
version. -/
theorem parse_format_roundtrip_c9 (s : String) (q : PkgToQuery) (op : CmpOp)
    (v : VersionTriple) (hp : PkgToQuery.parse s = some q)
    (hc : q.constraint = some (op, v)) :
    PkgToQuery.parse q.formatSpecifier = some q := by
  unfold PkgToQuery.parse at hp
  split at hp
  next hb =>
    by_cases he : s.data.isEmpty = true
    · rw [if_pos he] at hp
      exact absurd hp (by simp)
    · rw [if_neg he] at hp
      simp only [Option.some.injEq] at hp
      rw [← hp] at hc
      exact absurd hc (by simp)
  next n c hb =>
    by_cases hn : n.isEmpty = true
    · rw [if_pos hn] at hp
      exact absurd hp (by simp)
    · rw [if_neg hn] at hp
      split at hp
      next => exact absurd hp (by simp)
      next op' rest ho =>
        split at hp
        next => exact absurd hp (by simp)
        next v' hv =>
          simp only [Option.some.injEq] at hp
          subst hp
          have hat : '@' ∉ n := (breakAtSign_sound s.data (n, c) hb).1
          obtain ⟨ga, gb, gc⟩ := parseVersionChars_good rest v' hv
          obtain ⟨d, ma', hma, hd⟩ := goodComponent_shape v'.major ga
          have hr : v'.readableChars
              = d :: (ma' ++ '.' :: v'.minor ++ '.' :: v'.patch) := by
            rw [VersionTriple.readableChars, hma]
            rfl
          have hdata :
              (PkgToQuery.formatSpecifier ⟨⟨n⟩, some (op', v')⟩).data
                = n ++ '@' :: (op'.opChars ++ v'.readableChars) := by
            have h1 : ("@" : String).data = ['@'] := rfl
            simp [PkgToQuery.formatSpecifier, String.data_append, h1,
              opChars_data, VersionTriple.readableChars, List.append_assoc]
          have hpo : parseOp (op'.opChars ++ v'.readableChars)
              = some (op', v'.readableChars) := by
            conv_lhs => rw [hr]
            rw [parseOp_build op' d _ hd, hr]
          unfold PkgToQuery.parse
          rw [hdata]
          simp [breakAtSign_build n _ hat, hn, hpo,
            parseVersionChars_readable v' ga gb gc]

/-- Witness for C9 at the concrete specifier `pkg@>=1.2.3`. -/
theorem parse_format_roundtrip_c9_witness :
    PkgToQuery.parse
        (PkgToQuery.formatSpecifier ⟨"pkg", some (.ge, ⟨['1'], ['2'], ['3']⟩)⟩)
      = some ⟨"pkg", some (.ge, ⟨['1'], ['2'], ['3']⟩)⟩ :=
  parse_format_roundtrip_c9 "pkg@>=1.2.3" ⟨"pkg", some (.ge, ⟨['1'], ['2'], ['3']⟩)⟩
    .ge ⟨['1'], ['2'], ['3']⟩ rfl rfl

end Lpm
